import Mathlib

/-!
Shallow embedding of the go-depcheck dependency-boundary analyzer.

The embedding follows the feature-complete revision of the analyzer
(the one documented by the current README): `Config` with global
`ignorePatterns` plus `rules`, each rule carrying `from`, `to`,
`allowedDependencies` and rule-scoped `ignorePatterns`; `prepare`
compiling the patterns (global patterns via `regexp.Compile` with an
error return, rule patterns via `regexp.MustCompile`, which panics);
and `run`, which walks every file's import specs and reports one
diagnostic per matching `to` pattern of every applicable rule.

Go's `regexp` library is external to the repository, so a compiled
regular expression is modelled as an abstract matcher `String → Bool`
and `regexp.Compile` as an abstract partial function
`String → Option Matcher` (`none` = invalid pattern syntax).
Likewise `strconv.Unquote` is modelled as an abstract
`String → Option String`.

The older revision of the initialization gate (`sync.Once` with a
call-local error variable, file `depcheck.go`) is embedded alongside
the current one (`sync.OnceValue`), because their behaviour after a
failed initialization differs; both are modelled as explicit state
machines over a sequence of `run` calls.
-/

namespace Depcheck

/-- A compiled regular expression, abstracted to its matching behaviour
(`regexp.MatchString`). -/
abbrev Matcher := String → Bool

/-- `DependencyRule`: one raw rule of the YAML document
(`from` / `to` / `allowedDependencies` / `ignorePatterns`). -/
structure DependencyRule where
  from_ : String
  to_ : List String
  allowedDependencies : List String
  ignorePatterns : List String

/-- `Config`: the YAML document — global `ignorePatterns` plus the rule list. -/
structure Config where
  ignorePatterns : List String
  rules : List DependencyRule

/-- `compiledRule`: a rule with every pattern compiled to a matcher. -/
structure CompiledRule where
  from_ : Matcher
  to_ : List Matcher
  allowedDependencies : List Matcher
  ignorePatterns : List Matcher

/-- The compiled engine state set up by `prepare`: the package-level
variables `compiledIgnorePatterns` and `compiledRules`. -/
structure Engine where
  globals : List Matcher
  rules : List CompiledRule

/-- One import spec as the evaluator sees it: the quoted path literal
(`spec.Path.Value`) and the text of the attached comment
(`spec.Comment.Text()`). -/
structure ImportSpec where
  pathValue : String
  commentText : String

/-- One parsed file: its base file name and its import specs. -/
structure GoFile where
  filename : String
  imports : List ImportSpec

/-- One analysis pass: the package path and the files of the package. -/
structure Pass where
  pkgpath : String
  files : List GoFile

/-- `hasExceptionComment`: the attached comment text starts with the
fixed token `depcheck:allow` (`strings.HasPrefix`, modelled on the
character sequences of the two strings). -/
def hasExceptionComment (commentText : String) : Bool :=
  "depcheck:allow".toList.isPrefixOf commentText.toList

/-- Does any matcher in the list match the string? (the shape of every
matching loop in the source). -/
def matchesAny (patterns : List Matcher) (s : String) : Bool :=
  patterns.any (fun m => m s)

/-- `shouldIgnoreFile`: the file name matches a global ignore pattern or
a rule-scoped ignore pattern. -/
def shouldIgnoreFile (filename : String) (globalPatterns rulePatterns : List Matcher) : Bool :=
  matchesAny globalPatterns filename || matchesAny rulePatterns filename

/-- `isAllowed`: the import path matches one of the rule's
`allowedDependencies` patterns. -/
def isAllowed (rule : CompiledRule) (importPath : String) : Bool :=
  matchesAny rule.allowedDependencies importPath

/-- The body of the per-rule loop of `run`: skip if `from` does not
match the package path, skip if the file is ignored (globally or by the
rule), skip if the path is an allowed dependency, otherwise report
`invalid dependency` once per matching `to` pattern. -/
def ruleReports (globals : List Matcher) (rule : CompiledRule)
    (pkgpath filename path : String) : List String :=
  if !(rule.from_ pkgpath) then []
  else if shouldIgnoreFile filename globals rule.ignorePatterns then []
  else if isAllowed rule path then []
  else (rule.to_.filter (fun m => m path)).map
    (fun _ => "invalid dependency: " ++ path)

/-- The body of the per-import loop of `run`: unquote the path literal
(skip the spec when unquoting fails), skip when the import carries an
exception comment, otherwise run every rule. `uq` abstracts
`strconv.Unquote`. -/
def specReports (uq : String → Option String) (globals : List Matcher)
    (rules : List CompiledRule) (pkgpath filename : String)
    (spec : ImportSpec) : List String :=
  match uq spec.pathValue with
  | none => []
  | some path =>
    if hasExceptionComment spec.commentText then []
    else rules.flatMap (fun r => ruleReports globals r pkgpath filename path)

/-- The per-file loop of `run`. -/
def fileReports (uq : String → Option String) (globals : List Matcher)
    (rules : List CompiledRule) (pkgpath : String) (file : GoFile) : List String :=
  file.imports.flatMap (specReports uq globals rules pkgpath file.filename)

/-- The evaluation phase of `run` (everything after the initialization
gate): all diagnostics reported for a pass, in order. -/
def runEval (uq : String → Option String) (globals : List Matcher)
    (rules : List CompiledRule) (pass : Pass) : List String :=
  pass.files.flatMap (fileReports uq globals rules pass.pkgpath)

/-! ### Pattern compilation (`prepare`, compile phase)

`c : String → Option Matcher` abstracts `regexp.Compile`; `none` means
invalid pattern syntax. A loop of `regexp.MustCompile` calls and a loop
of `regexp.Compile`-with-error-return calls both stop at the first
invalid pattern, carrying that pattern; only the way the failure leaves
`prepare` differs (error return vs panic), which `PrepareOutcome`
distinguishes. -/

/-- Compile a list of pattern strings in order; fail with the first
pattern the compiler rejects. -/
def compilePatterns (c : String → Option Matcher) : List String → Except String (List Matcher)
  | [] => .ok []
  | p :: ps =>
    match c p with
    | none => .error p
    | some m =>
      match compilePatterns c ps with
      | .error q => .error q
      | .ok ms => .ok (m :: ms)

/-- Compile one rule: `from`, then the `to` patterns, then the
`allowedDependencies` patterns, then the rule-scoped `ignorePatterns`,
in source order (all via `regexp.MustCompile`). -/
def compileRule (c : String → Option Matcher) (r : DependencyRule) :
    Except String CompiledRule :=
  match c r.from_ with
  | none => .error r.from_
  | some f =>
    match compilePatterns c r.to_ with
    | .error p => .error p
    | .ok ts =>
      match compilePatterns c r.allowedDependencies with
      | .error p => .error p
      | .ok always =>
        match compilePatterns c r.ignorePatterns with
        | .error p => .error p
        | .ok igs => .ok ⟨f, ts, always, igs⟩

/-- Compile the rule list in document order. -/
def compileRules (c : String → Option Matcher) : List DependencyRule → Except String (List CompiledRule)
  | [] => .ok []
  | r :: rs =>
    match compileRule c r with
    | .error p => .error p
    | .ok cr =>
      match compileRules c rs with
      | .error q => .error q
      | .ok crs => .ok (cr :: crs)

/-- How the compile phase of `prepare` can end: success, an error
return (`invalid ignore pattern %q`, from `regexp.Compile` on a global
ignore pattern), or a panic (`regexp.MustCompile` on a rule pattern). -/
inductive PrepareOutcome where
  | ok (engine : Engine)
  | compileErr (pattern : String)
  | panicked (pattern : String)

/-- `true` exactly on the error-return outcome. -/
def PrepareOutcome.isCompileErr : PrepareOutcome → Bool
  | .compileErr _ => true
  | _ => false

/-- The compile phase of `prepare`: first the global ignore patterns
(`regexp.Compile`, error return naming the pattern), then every rule
(`regexp.MustCompile`, panic). -/
def compileConfig (c : String → Option Matcher) (cfg : Config) : PrepareOutcome :=
  match compilePatterns c cfg.ignorePatterns with
  | .error p => .compileErr p
  | .ok gs =>
    match compileRules c cfg.rules with
    | .error p => .panicked p
    | .ok rs => .ok ⟨gs, rs⟩

/-- The pattern strings of one rule in the order `prepare` compiles
them: `from`, `to`, `allowedDependencies`, `ignorePatterns`. -/
def rulePatternList (r : DependencyRule) : List String :=
  r.from_ :: (r.to_ ++ r.allowedDependencies ++ r.ignorePatterns)

/-- All rule pattern strings of the document in compilation order. -/
def allRulePatterns (rs : List DependencyRule) : List String :=
  rs.flatMap rulePatternList

/-! ### Config location (`findConfigFile`)

A directory is modelled as its list of path components with the
innermost component first, so `filepath.Dir` is `List.tail` (dropping
to the parent) and the root `[]` is its own parent. `ex` abstracts the
`os.Stat` existence probe, applied to a joined path `hint :: dir`.
The environment override is a `List String` that plays the role of the
`DEPCHECK_CONFIG` string, `[]` standing for the unset/empty value. -/

/-- The upward walk of `findConfigFile`: probe `<dir>/<hint>`, return
the first hit, move to the parent, and stop (not found) once the
parent of the current directory equals itself. -/
def searchUp (ex : List String → Bool) (hint : String) : List String → Except String (List String)
  | [] => if ex [hint] then .ok [hint] else .error "config file not found in any parent directory"
  | comp :: rest =>
    if ex (hint :: comp :: rest) then .ok (hint :: comp :: rest)
    else searchUp ex hint rest

/-- `findConfigFile`: an environment override is returned verbatim
(no existence probe); otherwise walk upward from the working
directory. -/
def findConfigFile (env : List String) (ex : List String → Bool)
    (cwd : List String) (hint : String) : Except String (List String) :=
  if env ≠ [] then .ok env
  else searchUp ex hint cwd

/-! ### The initialization gate

`prep` is the (deterministic, run-at-most-once) result of the
`prepare` pipeline: either an error or the compiled engine. Each model
is a step function from gate state and one pass to the next state, the
value `run` returns for that call, and whether this call executed the
pipeline; a trace folds the step over a list of passes. -/

/-- What one call of `run` returns: the cached initialization error
(`return nil, initError`) or, after edge evaluation, the reported
diagnostics (`return nil, nil`). -/
inductive RunResult where
  | err (e : String)
  | ok (reports : List String)
deriving DecidableEq

/-- `true` exactly on the non-error result. -/
def RunResult.isOk : RunResult → Bool
  | .ok _ => true
  | _ => false

/-- Gate state of the current revision: `sync.OnceValue(prepare)`
caches the result (error included) of the single `prepare` execution. -/
def OnceValueState := Option (Except String Engine)

/-- One `run` call under `sync.OnceValue`: the first call executes
`prepare` and caches its result; every call returns the cached error,
or evaluates the pass against the compiled engine. -/
def runOnceValue (prep : Except String Engine) (uq : String → Option String)
    (s : OnceValueState) (pass : Pass) : OnceValueState × RunResult × Bool :=
  match s.getD prep with
  | .error e => (some (.error e), .err e, s.isNone)
  | .ok eng => (some (.ok eng), .ok (runEval uq eng.globals eng.rules pass), s.isNone)

/-- Trace of `run` calls under the `sync.OnceValue` gate. -/
def traceOnceValue (prep : Except String Engine) (uq : String → Option String) :
    OnceValueState → List Pass → List (RunResult × Bool)
  | _, [] => []
  | s, p :: ps =>
    (runOnceValue prep uq s p).2 ::
      traceOnceValue prep uq (runOnceValue prep uq s p).1 ps

/-- Gate state of the older revision (`depcheck.go`): `sync.Once` only
remembers that the body ran; the error lives in a call-local variable,
and the package-level `compiledRules` keep whatever the single
`prepare` execution left behind (nothing, when it failed). -/
structure SyncOnceState where
  done : Bool
  engine : Engine

/-- One `run` call under `sync.Once` with a call-local error variable:
only the call that executes `prepare` sees its error; on every later
call the local error is `nil`, so the call proceeds to edge
evaluation with the stored (possibly never-assigned) rules. -/
def runSyncOnce (prep : Except String Engine) (uq : String → Option String)
    (s : SyncOnceState) (pass : Pass) : SyncOnceState × RunResult × Bool :=
  if s.done then
    (s, .ok (runEval uq s.engine.globals s.engine.rules pass), false)
  else
    match prep with
    | .error e => (⟨true, s.engine⟩, .err e, true)
    | .ok eng => (⟨true, eng⟩, .ok (runEval uq eng.globals eng.rules pass), true)

/-- Trace of `run` calls under the `sync.Once` gate. -/
def traceSyncOnce (prep : Except String Engine) (uq : String → Option String) :
    SyncOnceState → List Pass → List (RunResult × Bool)
  | _, [] => []
  | s, p :: ps =>
    (runSyncOnce prep uq s p).2 ::
      traceSyncOnce prep uq (runSyncOnce prep uq s p).1 ps

/-! ### Derived form used to state rule-exclusion locality

`ruleReportsNoIgnore` is the per-rule loop body with the
file-ignore gate deleted: what a rule does to an edge whose file it
does not ignore. Stating that a rule's verdict coincides with this
form is how "the rule is still fully evaluated" is made precise. -/

/-- The per-rule loop body without the `shouldIgnoreFile` gate. -/
def ruleReportsNoIgnore (rule : CompiledRule) (pkgpath path : String) : List String :=
  if !(rule.from_ pkgpath) then []
  else if isAllowed rule path then []
  else (rule.to_.filter (fun m => m path)).map
    (fun _ => "invalid dependency: " ++ path)

/-! ### Concrete inputs for witnesses and counterexamples -/

/-- A matcher that matches every string. -/
def mTrue : Matcher := fun _ => true

/-- A matcher that matches no string. -/
def mFalse : Matcher := fun _ => false

/-- An unquote function that accepts every literal unchanged. -/
def uqId : String → Option String := fun s => some s

/-- An unquote function that rejects every literal. -/
def uqNone : String → Option String := fun _ => none

/-- An import spec with no attached comment. -/
def specPlain : ImportSpec := ⟨"q", ""⟩

/-- An import spec carrying the inline exemption marker. -/
def specMarked : ImportSpec := ⟨"q", "depcheck:allow temporarily"⟩

/-- A rule that applies everywhere and forbids everything. -/
def ruleForbid : CompiledRule := ⟨mTrue, [mTrue], [], []⟩

/-- A rule with two `to` patterns that both match every path. -/
def ruleTwo : CompiledRule := ⟨mTrue, [mTrue, mTrue], [], []⟩

/-- A rule whose exception pattern and forbidden pattern both match
every path. -/
def ruleExc : CompiledRule := ⟨mTrue, [mTrue], [mTrue], []⟩

/-- A rule whose rule-scoped ignore pattern matches every file name. -/
def ruleIgnoring : CompiledRule := ⟨mTrue, [mTrue], [], [mTrue]⟩

/-- A pass with one file and one plain import. -/
def passOne : Pass := ⟨"pkg", [⟨"f.go", [specPlain]⟩]⟩

/-- An abstract regex compiler that rejects exactly the pattern `(`. -/
def cParen : String → Option Matcher :=
  fun s => if s = "(" then none else some mTrue

/-- A document whose only rule has the invalid `from` pattern `(`. -/
def cfgBadRule : Config := ⟨["g"], [⟨"(", [], [], []⟩]⟩

/-- A document whose global ignore list holds the invalid pattern `(`. -/
def cfgBadGlobal : Config := ⟨["("], [⟨"f", [], [], []⟩]⟩

/-- A small document all of whose patterns compile. -/
def cfgGood : Config := ⟨["g"], [⟨"f", ["t"], [], []⟩]⟩

/-- The engine `cfgGood` compiles to under a compiler that maps every
pattern to `mTrue`. -/
def engGood : Engine := ⟨[mTrue], [⟨mTrue, [mTrue], [], []⟩]⟩

/-- An abstract regex compiler that accepts every pattern as `mTrue`. -/
def cAll : String → Option Matcher := fun _ => some mTrue

/-- An existence probe that finds nothing. -/
def exNone : List String → Bool := fun _ => false

/-- An existence probe that finds a path exactly in the directory
`["b", "a"]` (that is, `/a/b`). -/
def exAtBA : List String → Bool := fun d => d.tail == ["b", "a"]

/-! ## Helper lemmas -/

theorem flatMap_eq_nil_of {α β : Type} (l : List α) (f : α → List β)
    (h : ∀ a ∈ l, f a = []) : l.flatMap f = [] := by
  induction l with
  | nil => rfl
  | cons a l ih =>
    simp only [List.flatMap_cons, h a (List.mem_cons_self a l),
      List.nil_append]
    exact ih fun b hb => h b (List.mem_cons_of_mem a hb)

theorem ruleReports_eq_nil_of_global (g : List Matcher) (r : CompiledRule)
    (pk fn path : String) (h : matchesAny g fn = true) :
    ruleReports g r pk fn path = [] := by
  unfold ruleReports shouldIgnoreFile
  rw [h]
  cases r.from_ pk <;> simp

/-! ## Claim theorems -/

/-- Claim C4: an edge whose attached comment begins with the token
`depcheck:allow` is always allowed — no rule is consulted and no
violation is reported, whatever the rule set and the global
exclusions. -/
theorem inline_exemption_always_allows (uq : String → Option String)
    (g : List Matcher) (rs : List CompiledRule) (pk fn : String)
    (sp : ImportSpec) (h : hasExceptionComment sp.commentText = true) :
    specReports uq g rs pk fn sp = [] := by
  unfold specReports
  cases uq sp.pathValue <;> simp [h]

/-- Witness for C4: an import marked `depcheck:allow temporarily` draws
no report even though a rule forbids its path. -/
theorem inline_exemption_always_allows_witness :
    specReports uqId [mTrue] [ruleForbid] "p" "f" specMarked = [] :=
  inline_exemption_always_allows uqId [mTrue] [ruleForbid] "p" "f" specMarked rfl

/-- Claim C5: within one rule, exception patterns dominate forbidden
patterns — when the rule's `from` matches the importer and the imported
path matches an `allowedDependencies` pattern, the rule records no
violation, whatever its `to` patterns match. -/
theorem exceptions_dominate_forbidden (g : List Matcher) (r : CompiledRule)
    (pk fn path : String) (hFrom : r.from_ pk = true)
    (hExc : isAllowed r path = true) :
    ruleReports g r pk fn path = [] := by
  unfold ruleReports
  rw [hFrom, hExc]
  simp

/-- Witness for C5: a rule whose exception pattern and forbidden
pattern both match the path records nothing. -/
theorem exceptions_dominate_forbidden_witness :
    ruleReports [] ruleExc "p" "f" "q" = [] ∧
      matchesAny (CompiledRule.to_ ruleExc) "q" = true :=
  ⟨exceptions_dominate_forbidden [] ruleExc "p" "f" "q" rfl rfl, rfl⟩

/-- Claim C6: an edge whose containing file name matches a global
exclusion pattern is allowed — no rule records a violation, whatever
the rule set. -/
theorem global_exclusion_always_allows (uq : String → Option String)
    (g : List Matcher) (rs : List CompiledRule) (pk fn : String)
    (sp : ImportSpec) (h : matchesAny g fn = true) :
    specReports uq g rs pk fn sp = [] := by
  unfold specReports
  cases uq sp.pathValue with
  | none => rfl
  | some path =>
    simp only []
    split
    · rfl
    · exact flatMap_eq_nil_of rs _ fun r _ =>
        ruleReports_eq_nil_of_global g r pk fn path h

/-- Witness for C6: a globally ignored file draws no report even
though a rule forbids the imported path. -/
theorem global_exclusion_always_allows_witness :
    specReports uqId [mTrue] [ruleForbid] "p" "repo_mock.go" specPlain = [] :=
  global_exclusion_always_allows uqId [mTrue] [ruleForbid] "p" "repo_mock.go"
    specPlain rfl

/-- Claim C7: rule-scoped exclusions are local to their rule — when the
file name matches an exclusion pattern of rule `A`, no global exclusion
matches, and no exclusion pattern of rule `B` matches, rule `A` records
nothing while rule `B` behaves exactly as if the file-ignore gate did
not exist (its exception and forbidden patterns are applied). -/
theorem rule_exclusions_are_local (g : List Matcher) (A B : CompiledRule)
    (pk fn path : String) (hA : matchesAny A.ignorePatterns fn = true)
    (hB : matchesAny B.ignorePatterns fn = false)
    (hG : matchesAny g fn = false) :
    ruleReports g A pk fn path = [] ∧
      ruleReports g B pk fn path = ruleReportsNoIgnore B pk path := by
  constructor
  · unfold ruleReports shouldIgnoreFile
    rw [hA, hG]
    cases A.from_ pk <;> simp
  · unfold ruleReports ruleReportsNoIgnore shouldIgnoreFile
    rw [hB, hG]
    simp

/-- Witness for C7: the file is excluded under `ruleIgnoring` (which
records nothing) yet `ruleForbid` still reports the forbidden path. -/
theorem rule_exclusions_are_local_witness :
    (ruleReports [mFalse] ruleIgnoring "p" "f" "q" = [] ∧
      ruleReports [mFalse] ruleForbid "p" "f" "q" =
        ruleReportsNoIgnore ruleForbid "p" "q") ∧
    ruleReportsNoIgnore ruleForbid "p" "q" = ["invalid dependency: q"] :=
  ⟨rule_exclusions_are_local [mFalse] ruleIgnoring ruleForbid "p" "f" "q"
    rfl rfl rfl |>.imp id fun h => h, rfl⟩

/-- Claim C10: an import whose quoted path literal fails to unquote is
silently skipped — it contributes no report under any rule set, and the
evaluation entry point still returns without error on every call made
after a successful initialization. -/
theorem malformed_import_silently_skipped (uq : String → Option String)
    (g : List Matcher) (rs : List CompiledRule) (pk fn : String)
    (sp : ImportSpec) (h : uq sp.pathValue = none) :
    specReports uq g rs pk fn sp = [] ∧
      ∀ (eng : Engine) (ps : List Pass),
        ∀ x ∈ traceOnceValue (.ok eng) uq none ps, x.1.isOk = true := by
  constructor
  · unfold specReports
    rw [h]
  · intro eng ps
    have key : ∀ (qs : List Pass) (s : OnceValueState),
        (s = none ∨ s = some (.ok eng)) →
        ∀ x ∈ traceOnceValue (.ok eng) uq s qs, x.1.isOk = true := by
      intro qs
      induction qs with
      | nil => intro s _ x hx; cases hx
      | cons q qs ih =>
        intro s hs x hx
        rcases hs with hs | hs <;> subst hs <;>
          rw [traceOnceValue] at hx <;>
          rcases List.mem_cons.mp hx with hx | hx
        · subst hx; rfl
        · exact ih _ (Or.inr rfl) x hx
        · subst hx; rfl
        · exact ih _ (Or.inr rfl) x hx
    exact key ps none (Or.inl rfl)

/-- Witness for C10: an import whose literal never unquotes draws no
report although a rule forbids everything. -/
theorem malformed_import_silently_skipped_witness :
    specReports uqNone [] [ruleForbid] "p" "f" specPlain = [] :=
  (malformed_import_silently_skipped uqNone [] [ruleForbid] "p" "f"
    specPlain rfl).1

theorem traceOnceValue_cached_error (e : String) (uq : String → Option String)
    (ps : List Pass) :
    traceOnceValue (.error e) uq (some (.error e)) ps =
      ps.map (fun _ => ((RunResult.err e), false)) := by
  induction ps with
  | nil => rfl
  | cons p ps ih => rw [traceOnceValue]; rw [List.map_cons, ← ih]; rfl

theorem traceSyncOnce_after_done (prep : Except String Engine)
    (uq : String → Option String) (eng : Engine) (ps : List Pass) :
    traceSyncOnce prep uq ⟨true, eng⟩ ps =
      ps.map (fun q =>
        ((RunResult.ok (runEval uq eng.globals eng.rules q)), false)) := by
  induction ps with
  | nil => rfl
  | cons p ps ih => rw [traceSyncOnce]; rw [List.map_cons, ← ih]; rfl

/-- Claim C1 (amended): when the initialization pipeline fails with
error `e`, the pipeline is executed at most once in both revisions of
the gate, but their caller-visible behaviour differs. Under
`sync.OnceValue` (the current revision) the failure is cached: every
call, first and later, returns the same error and never reaches edge
evaluation. Under `sync.Once` with a call-local error variable
(`depcheck.go`), only the first call returns the error; every later
call sees a nil error and proceeds to edge evaluation over the rules
the failed initialization left behind (none). -/
theorem initGate_failure_caching (e : String) (uq : String → Option String)
    (ps : List Pass) :
    (traceOnceValue (.error e) uq none ps =
      match ps with
      | [] => []
      | _ :: rest =>
        ((RunResult.err e), true) :: rest.map (fun _ => ((RunResult.err e), false))) ∧
    (traceSyncOnce (.error e) uq ⟨false, ⟨[], []⟩⟩ ps =
      match ps with
      | [] => []
      | _ :: rest =>
        ((RunResult.err e), true) ::
          rest.map (fun q => ((RunResult.ok (runEval uq [] [] q)), false))) := by
  constructor
  · cases ps with
    | nil => rfl
    | cons p rest =>
      show ((RunResult.err e), true) ::
          traceOnceValue (.error e) uq (some (.error e)) rest = _
      rw [traceOnceValue_cached_error e uq rest]
  · cases ps with
    | nil => rfl
    | cons p rest =>
      show ((RunResult.err e), true) ::
          traceSyncOnce (.error e) uq ⟨true, ⟨[], []⟩⟩ rest = _
      rw [traceSyncOnce_after_done (.error e) uq ⟨[], []⟩ rest]

/-- Counterexample for C1 as stated: under the `sync.Once` gate of
`depcheck.go`, with a failing pipeline, the second of two `run` calls
does not receive the cached failure — it returns success after
proceeding to edge evaluation. -/
theorem initGate_syncOnce_second_call_proceeds :
    traceSyncOnce (.error "could not find config file") uqId
        ⟨false, ⟨[], []⟩⟩ [passOne, passOne] =
      [((RunResult.err "could not find config file"), true),
        ((RunResult.ok []), false)] := rfl

theorem ruleReports_length (g : List Matcher) (r : CompiledRule)
    (pk fn path : String) :
    (ruleReports g r pk fn path).length =
      if r.from_ pk && !(shouldIgnoreFile fn g r.ignorePatterns) &&
          !(isAllowed r path)
      then r.to_.countP (fun m => m path) else 0 := by
  unfold ruleReports
  cases hf : r.from_ pk <;>
    cases hs : shouldIgnoreFile fn g r.ignorePatterns <;>
      cases ha : isAllowed r path <;>
        simp [hf, hs, ha, List.countP_eq_length_filter]

/-- Claim C2 (amended): the evaluator does not stop at a rule's first
matching forbidden pattern — it reports once per matching `to`
pattern, so the number of reports for an edge equals the total number
of matching forbidden patterns summed over the rules whose `from`
matches the importer, whose file is not excluded, and whose imported
path has no matching exception. -/
theorem report_count_eq_total_matching_forbidden (uq : String → Option String)
    (g : List Matcher) (rules : List CompiledRule) (pk fn : String)
    (sp : ImportSpec) :
    (specReports uq g rules pk fn sp).length =
      match uq sp.pathValue with
      | none => 0
      | some path =>
        if hasExceptionComment sp.commentText then 0
        else (rules.map (fun r =>
          if r.from_ pk && !(shouldIgnoreFile fn g r.ignorePatterns) &&
              !(isAllowed r path)
          then r.to_.countP (fun m => m path) else 0)).sum := by
  unfold specReports
  cases huq : uq sp.pathValue with
  | none => rfl
  | some path =>
    split
    · rfl
    · split
      · rfl
      · rw [List.length_flatMap]
        congr 1
        exact List.map_congr_left fun r _ => ruleReports_length g r pk fn _

/-- Counterexample for C2 as stated: a single rule with two matching
forbidden patterns records two violation reports for one edge, so the
report count exceeds the number of violated rules. -/
theorem two_forbidden_patterns_two_reports :
    specReports uqId [] [ruleTwo] "p" "f" specPlain =
        ["invalid dependency: q", "invalid dependency: q"] ∧
      ([ruleTwo] : List CompiledRule).length = 1 := ⟨rfl, rfl⟩

theorem compilePatterns_error_iff (c : String → Option Matcher)
    (l : List String) (p : String) :
    compilePatterns c l = .error p ↔
      l.find? (fun q => (c q).isNone) = some p := by
  induction l with
  | nil => simp [compilePatterns]
  | cons q qs ih =>
    rw [compilePatterns]
    cases hc : c q with
    | none => simp [List.find?_cons, hc]
    | some m =>
      cases hr : compilePatterns c qs with
      | error r => simp [List.find?_cons, hc, ← ih, hr]
      | ok ms => simp [List.find?_cons, hc, ← ih, hr]

theorem compilePatterns_ok_find? (c : String → Option Matcher)
    (l : List String) (ms : List Matcher)
    (h : compilePatterns c l = .ok ms) :
    l.find? (fun q => (c q).isNone) = none := by
  cases hf : l.find? (fun q => (c q).isNone) with
  | none => rfl
  | some p =>
    rw [(compilePatterns_error_iff c l p).mpr hf] at h
    simp at h

theorem compileRule_error_iff (c : String → Option Matcher)
    (r : DependencyRule) (p : String) :
    compileRule c r = .error p ↔
      (rulePatternList r).find? (fun q => (c q).isNone) = some p := by
  rw [compileRule, rulePatternList]
  cases hc : c r.from_ with
  | none => simp [List.find?_cons, hc]
  | some f =>
    rw [List.find?_cons]
    simp only [hc, Option.isNone_some]
    cases h1 : compilePatterns c r.to_ with
    | error p1 =>
      simp [List.find?_append, (compilePatterns_error_iff c r.to_ p1).mp h1]
    | ok ts =>
      have e1 := compilePatterns_ok_find? c r.to_ ts h1
      cases h2 : compilePatterns c r.allowedDependencies with
      | error p2 =>
        simp [List.find?_append, e1,
          (compilePatterns_error_iff c r.allowedDependencies p2).mp h2]
      | ok always =>
        have e2 := compilePatterns_ok_find? c r.allowedDependencies always h2
        cases h3 : compilePatterns c r.ignorePatterns with
        | error p3 =>
          simp [List.find?_append, e1, e2,
            (compilePatterns_error_iff c r.ignorePatterns p3).mp h3]
        | ok igs =>
          have e3 := compilePatterns_ok_find? c r.ignorePatterns igs h3
          simp [List.find?_append, e1, e2, e3]

theorem compileRule_ok_find? (c : String → Option Matcher)
    (r : DependencyRule) (cr : CompiledRule)
    (h : compileRule c r = .ok cr) :
    (rulePatternList r).find? (fun q => (c q).isNone) = none := by
  cases hf : (rulePatternList r).find? (fun q => (c q).isNone) with
  | none => rfl
  | some p =>
    rw [(compileRule_error_iff c r p).mpr hf] at h
    simp at h

theorem compileRules_error_iff (c : String → Option Matcher)
    (rs : List DependencyRule) (p : String) :
    compileRules c rs = .error p ↔
      (allRulePatterns rs).find? (fun q => (c q).isNone) = some p := by
  induction rs with
  | nil => simp [compileRules, allRulePatterns]
  | cons r rs ih =>
    rw [compileRules]
    have hsplit : allRulePatterns (r :: rs) =
        rulePatternList r ++ allRulePatterns rs := by
      simp [allRulePatterns]
    rw [hsplit]
    cases h1 : compileRule c r with
    | error q =>
      simp [List.find?_append, (compileRule_error_iff c r q).mp h1]
    | ok cr =>
      have e1 := compileRule_ok_find? c r cr h1
      cases h2 : compileRules c rs with
      | error q => simp [List.find?_append, e1, ← ih, h2]
      | ok crs => simp [List.find?_append, e1, ← ih, h2]

/-- Claim C3 (amended): the failure mode of the compile phase of
`prepare` depends on where the invalid pattern sits. A document whose
first uncompilable pattern is a global exclusion makes `prepare`
return an error value naming that pattern (`regexp.Compile`); a
document whose global exclusions all compile but which has an
uncompilable pattern inside a rule (source, forbidden, exception or
rule-scoped exclusion) makes `prepare` panic via `regexp.MustCompile`
on the first such pattern, instead of returning an error value; a
document all of whose patterns compile yields the engine. -/
theorem compile_failure_modes (c : String → Option Matcher) (cfg : Config) :
    (∀ p, cfg.ignorePatterns.find? (fun q => (c q).isNone) = some p →
      compileConfig c cfg = .compileErr p) ∧
    (cfg.ignorePatterns.find? (fun q => (c q).isNone) = none →
      ∀ p, (allRulePatterns cfg.rules).find? (fun q => (c q).isNone) = some p →
        compileConfig c cfg = .panicked p) ∧
    (cfg.ignorePatterns.find? (fun q => (c q).isNone) = none →
      (allRulePatterns cfg.rules).find? (fun q => (c q).isNone) = none →
        ∃ eng, compileConfig c cfg = .ok eng) := by
  refine ⟨?_, ?_, ?_⟩
  · intro p hp
    rw [compileConfig, (compilePatterns_error_iff c cfg.ignorePatterns p).mpr hp]
  · intro hg p hp
    rw [compileConfig]
    cases h1 : compilePatterns c cfg.ignorePatterns with
    | error q =>
      rw [(compilePatterns_error_iff c cfg.ignorePatterns q).mp h1] at hg
      cases hg
    | ok gs =>
      rw [(compileRules_error_iff c cfg.rules p).mpr hp]
  · intro hg hr
    rw [compileConfig]
    cases h1 : compilePatterns c cfg.ignorePatterns with
    | error q =>
      rw [(compilePatterns_error_iff c cfg.ignorePatterns q).mp h1] at hg
      cases hg
    | ok gs =>
      cases h2 : compileRules c cfg.rules with
      | error q =>
        rw [(compileRules_error_iff c cfg.rules q).mp h2] at hr
        cases hr
      | ok rs => exact ⟨⟨gs, rs⟩, rfl⟩

/-- Witness for C3 (amended): an invalid global exclusion pattern is
returned as an error naming `(`; an invalid rule pattern makes the
compile phase panic on `(`. -/
theorem compile_failure_modes_witness :
    compileConfig cParen cfgBadGlobal = .compileErr "(" ∧
      compileConfig cParen cfgBadRule = .panicked "(" :=
  ⟨(compile_failure_modes cParen cfgBadGlobal).1 "(" rfl,
    (compile_failure_modes cParen cfgBadRule).2.1 rfl "(" rfl⟩

/-- Counterexample for C3 as stated: a document whose rule holds the
invalid pattern `(` does not make compilation return a CompileError
value — the compile phase panics instead (`regexp.MustCompile`). -/
theorem invalid_rule_pattern_panics :
    (compileConfig cParen cfgBadRule).isCompileErr = false ∧
      compileConfig cParen cfgBadRule = .panicked "(" := ⟨rfl, rfl⟩

theorem searchUp_eq_tails (ex : List String → Bool) (hint : String)
    (cwd : List String) :
    searchUp ex hint cwd =
      match cwd.tails.find? (fun d => ex (hint :: d)) with
      | some d => .ok (hint :: d)
      | none => .error "config file not found in any parent directory" := by
  induction cwd with
  | nil =>
    rw [searchUp]
    cases hex : ex [hint] <;> simp [List.find?_cons, hex]
  | cons cmp rest ih =>
    rw [searchUp, List.tails_cons, List.find?_cons]
    cases hex : ex (hint :: cmp :: rest) with
    | true => simp
    | false => simpa using ih

/-- Claim C8: config location. A non-empty environment override is
returned verbatim, with no existence probe consulted; with no
override, the walk starts at the working directory and moves to
parent directories (to the root, which is its own parent, included),
returning the hint joined onto the first directory where it exists,
and reporting not-found exactly when no directory on that ancestor
chain has it — in particular the walk always terminates. -/
theorem findConfigFile_locates (env : List String) (ex : List String → Bool)
    (cwd : List String) (hint : String) :
    (env ≠ [] → findConfigFile env ex cwd hint = .ok env) ∧
      findConfigFile [] ex cwd hint =
        match cwd.tails.find? (fun d => ex (hint :: d)) with
        | some d => .ok (hint :: d)
        | none => .error "config file not found in any parent directory" := by
  constructor
  · intro h
    rw [findConfigFile, if_pos h]
  · rw [findConfigFile, if_neg (by simp)]
    exact searchUp_eq_tails ex hint cwd

/-- Witness for C8: the override `["x"]` is returned verbatim under a
probe that finds nothing, and without an override the walk from
`/a/b/c` finds the hint two levels up, in `/a/b`. -/
theorem findConfigFile_locates_witness :
    findConfigFile ["x"] exNone ["c", "b", "a"] "h" = .ok ["x"] ∧
      findConfigFile [] exAtBA ["c", "b", "a"] "h" = .ok ["h", "b", "a"] :=
  ⟨(findConfigFile_locates ["x"] exNone ["c", "b", "a"] "h").1 (by simp),
    by rw [(findConfigFile_locates [] exAtBA ["c", "b", "a"] "h").2]; rfl⟩

/-- Claim C9: compilation is deterministic — two compilations of the
same document that both succeed yield engines with identical verdicts
on every edge. -/
theorem compile_idempotent_verdicts (c : String → Option Matcher)
    (cfg : Config) (e1 e2 : Engine)
    (h1 : compileConfig c cfg = .ok e1) (h2 : compileConfig c cfg = .ok e2) :
    ∀ (uq : String → Option String) (pk fn : String) (sp : ImportSpec),
      specReports uq e1.globals e1.rules pk fn sp =
        specReports uq e2.globals e2.rules pk fn sp := by
  rw [h1] at h2
  cases h2
  intro uq pk fn sp
  rfl

/-- Witness for C9: `cfgGood` compiles (twice) to `engGood`, with
equal verdicts on a concrete edge. -/
theorem compile_idempotent_verdicts_witness :
    specReports uqId engGood.globals engGood.rules "p" "f" specPlain =
      specReports uqId engGood.globals engGood.rules "p" "f" specPlain :=
  compile_idempotent_verdicts cAll cfgGood engGood engGood rfl rfl
    uqId "p" "f" specPlain

end Depcheck
